import Mathlib

/-!
Verification of the hab-proj Arduino serial-communication core
(`hab_proj/serial_comm.py`) and of the perception-loop cadence of
`hab_proj/camera.py`, via a shallow embedding in Lean 4.

Conventions of the embedding:
* Python strings are Lean `String`; `str.lower()` maps `Char.toLower`
  over the characters, `str.strip()` is `trimChars`, substring
  containment (`a in b`) is the executable `strContains`.
* The serial handle is modelled as `Option Bool`: `none` means no handle
  object exists (`serial_conn is None`), `some true` an open handle,
  `some false` a closed handle (`close()` was called).
* Real time inside the camera loop is modelled by rational timestamps
  supplied with each frame; blocking sleeps and wall-clock magnitudes are
  abstracted away, only the comparisons the code performs are kept.
* Nondeterministic outcomes of the outside world (which serial ports
  exist, whether `serial.Serial(...)` raises, which lines arrive during
  verification, whether a write raises) are supplied as explicit
  environment records.
-/

/-! ### String utilities (executable substring / pattern matching) -/

/-- `listStarts pat cs` is true when `pat` is an initial segment of `cs`. -/
def listStarts : List Char → List Char → Bool
  | [], _ => true
  | _ :: _, [] => false
  | a :: as, b :: bs => (a == b) && listStarts as bs

/-- `listHasSub pat cs`: `pat` occurs contiguously somewhere inside `cs`
(Python's `pat in cs`). -/
def listHasSub (pat : List Char) : List Char → Bool
  | [] => listStarts pat []
  | c :: rest => listStarts pat (c :: rest) || listHasSub pat rest

/-- Python `needle in hay` for strings. -/
def strContains (needle hay : String) : Bool :=
  listHasSub needle.toList hay.toList

/-- `str.lower()`, character-wise (structural, so it evaluates in the
kernel, unlike `String.toLower`). -/
def lowerChars (cs : List Char) : List Char :=
  cs.map Char.toLower

/-- `str.strip()`: drop leading and trailing whitespace. -/
def trimChars (cs : List Char) : List Char :=
  (((cs.dropWhile Char.isWhitespace).reverse).dropWhile Char.isWhitespace).reverse

/-- A hexadecimal digit, the character class `[0-9a-fA-F]`. -/
def isHexDigit (c : Char) : Bool :=
  c.isDigit || (('a' ≤ c) && (c ≤ 'f')) || (('A' ≤ c) && (c ≤ 'F'))

/-- Matches `lit` followed by exactly-here two hex digits, at the head of
`cs` (used for the regex `VID:PID=2341:00[0-9a-fA-F]\x7b2\x7d`). -/
def litThenHex2 (lit : List Char) (cs : List Char) : Bool :=
  listStarts lit cs &&
    (match cs.drop lit.length with
     | a :: b :: _ => isHexDigit a && isHexDigit b
     | _ => false)

/-- `re.search`: the head-anchored matcher `f` succeeds on some suffix. -/
def searchBy (f : List Char → Bool) : List Char → Bool
  | [] => f []
  | c :: rest => f (c :: rest) || searchBy f rest

/-- Matches `lit` followed by at least one digit, at the head of `cs`
(the anchored regexes `...\d+` checked with `re.match`, which only
requires a match at the start of the string). -/
def litThenDigit (lit : List Char) (cs : List Char) : Bool :=
  listStarts lit cs &&
    (match cs.drop lit.length with
     | d :: _ => d.isDigit
     | [] => false)

/-! ### Port discovery (`ArduinoSerial._find_arduino_port`)

A serial port as reported by `serial.tools.list_ports.comports()`:
`device` / `description` / `hwid` attributes. -/

structure PortInfo where
  device : String
  description : String
  hwid : String
deriving DecidableEq

/-- Strategy 1 test: `"arduino" in port.description.lower() or
"arduino" in port.hwid.lower()`. -/
def desc_or_hwid_has_arduino (p : PortInfo) : Bool :=
  listHasSub "arduino".toList (lowerChars p.description.toList) ||
  listHasSub "arduino".toList (lowerChars p.hwid.toList)

/-- Strategy 2 test: `re.search(pattern, port.hwid, re.IGNORECASE)` for one
of the five `ARDUINO_VID_PID_PATTERNS`.  Case-insensitive search is
modelled by lowering both sides; the hex character class is closed under
lowering. -/
def hwid_has_known_vid_pid (p : PortInfo) : Bool :=
  let h := lowerChars p.hwid.toList
  searchBy (litThenHex2 "vid:pid=2341:00".toList) h ||
  listHasSub "vid:pid=1a86:7523".toList h ||
  listHasSub "vid:pid=0403:6001".toList h ||
  listHasSub "vid:pid=0403:6015".toList h ||
  listHasSub "vid:pid=1a86:55d4".toList h

/-- Strategy 3 test: `re.match(pattern, port.device)` for one of the
`arduino_port_patterns` (anchored at the start, case-sensitive;
`(cu|tty)` alternation expanded). -/
def device_has_arduino_name (p : PortInfo) : Bool :=
  let d := p.device.toList
  litThenDigit "cu.usbmodem".toList d ||
  litThenDigit "tty.usbmodem".toList d ||
  litThenDigit "cu.wchusbserial".toList d ||
  litThenDigit "tty.wchusbserial".toList d ||
  listStarts "cu.SLAB_USBtoUART".toList d ||
  listStarts "tty.SLAB_USBtoUART".toList d ||
  litThenDigit "COM".toList d

/-- `ArduinoSerial._find_arduino_port`, as a pure function of the list of
ports the system reports.  The four strategies are tried in order; within
a strategy the first matching port wins (`for port in ports: ... return`). -/
def find_arduino_port (ports : List PortInfo) : Option String :=
  if ports.isEmpty then none
  else
    match ports.find? desc_or_hwid_has_arduino with
    | some p => some p.device
    | none =>
      match ports.find? hwid_has_known_vid_pid with
      | some p => some p.device
      | none =>
        match ports.find? device_has_arduino_name with
        | some p => some p.device
        | none =>
          match ports with
          | [p] => some p.device
          | _ => none

/-! ### Connection verification (`ArduinoSerial._verify_arduino_connection`)

The environment supplies, for each of the ping attempts the code could
make, the list of lines (already decoded and newline-terminated, as
`readline().decode(...)` would yield them) that arrive during that
attempt's one-second polling window.  The code performs at most three
attempts (`for _ in range(3)`), so only the first three entries can be
consumed; within an attempt it returns `True` as soon as a received line
contains the ready token. -/

/-- The ready-token test on one received line:
`"Arduino pronto" in response` after `.strip()`. -/
def line_is_ready (line : String) : Bool :=
  listHasSub "Arduino pronto".toList (trimChars line.toList)

/-- One ping attempt per list element; returns the verification outcome
together with the number of pings actually written (`1` when the first
attempt succeeds, attempts after a success are never made). -/
def verify_attempts : List (List String) → Bool × Nat
  | [] => (false, 0)
  | lines :: rest =>
    if lines.any line_is_ready then (true, 1)
    else
      let r := verify_attempts rest
      (r.1, r.2 + 1)

/-- `ArduinoSerial._verify_arduino_connection`.  `isOpen` is the
`self.serial_conn and self.serial_conn.is_open` guard; `arrivals` is the
full schedule of incoming lines, of which the code examines at most the
first three attempts' worth. -/
def verify_arduino_connection (isOpen : Bool) (arrivals : List (List String)) :
    Bool × Nat :=
  if isOpen then verify_attempts (arrivals.take 3) else (false, 0)

/-! ### The session (`ArduinoSerial`) -/

/-- The mutable attributes of an `ArduinoSerial` object.  `serial_conn`
is `none` while `self.serial_conn is None`, `some b` once a handle object
exists, with `b` its `is_open` status. -/
structure Session where
  port : Option String
  baudrate : Nat
  timeout : Nat
  serial_conn : Option Bool
  is_connected : Bool
  arduino_responding : Bool
  require_arduino : Bool
deriving DecidableEq

/-- `ArduinoSerial.__init__`. -/
def arduino_serial_init (port : Option String) (baudrate : Nat)
    (timeout : Nat) (require_arduino : Bool) : Session :=
  ⟨port, baudrate, timeout, none, false, false, require_arduino⟩

/-- World outcomes consumed by one `connect()` call: the ports the system
reports to `_find_arduino_port`, whether `serial.Serial(...)` succeeds
(rather than raising `SerialException`), and the incoming-line schedule
seen by verification. -/
structure ConnectEnv where
  ports : List PortInfo
  openOk : Bool
  arrivals : List (List String)
deriving DecidableEq

/-- Result of a `connect()` call: the session state afterwards, the
returned boolean, and whether `_find_arduino_port` was invoked. -/
structure ConnectResult where
  state : Session
  ok : Bool
  ranDiscovery : Bool
deriving DecidableEq

/-- The part of `connect()` after the port is known: open the handle
(`serial.Serial` may raise, leaving `self.serial_conn` unchanged), wait
the settle delay, verify, and apply the `require_arduino` policy. -/
def connect_after_port (env : ConnectEnv) (s : Session) (ranDisc : Bool) :
    ConnectResult :=
  if env.openOk then
    let s1 : Session := { s with serial_conn := some true }
    let resp := (verify_arduino_connection true env.arrivals).1
    let s2 : Session := { s1 with arduino_responding := resp }
    if !resp && s2.require_arduino then
      ⟨{ s2 with serial_conn := some false }, false, ranDisc⟩
    else
      ⟨{ s2 with is_connected := true }, true, ranDisc⟩
  else
    ⟨s, false, ranDisc⟩

/-- `ArduinoSerial.connect`. -/
def connect (env : ConnectEnv) (s : Session) : ConnectResult :=
  if s.is_connected then ⟨s, true, false⟩
  else
    match s.port with
    | none =>
      match find_arduino_port env.ports with
      | none => ⟨s, false, true⟩
      | some p => connect_after_port env { s with port := some p } true
    | some _ => connect_after_port env s false

/-- `ArduinoSerial.disconnect`: closes the handle and clears the flags
only when a handle object exists (any `Serial` object is truthy) and
`is_connected` is set. -/
def disconnect (s : Session) : Session :=
  if s.serial_conn.isSome && s.is_connected then
    { s with serial_conn := some false, is_connected := false,
             arduino_responding := false }
  else s

/-- World outcomes consumed by one `send_command` call: the environment a
lazy `connect()` would see, and whether `serial_conn.write` succeeds
(rather than raising `SerialException`). -/
structure SendEnv where
  cenv : ConnectEnv
  writeOk : Bool
deriving DecidableEq

/-- Result of `send_command` / `send_label_command`: the state afterwards,
the returned boolean, the bytes that went out on the wire (if any), and
how many times `connect()` was invoked. -/
structure SendResult where
  state : Session
  ok : Bool
  wrote : Option String
  connectCalls : Nat
deriving DecidableEq

/-- The body of `send_command` after the lazy-reconnect step: the
`require_arduino` guard, then the write of `str(command) + '\n'` (on a
raised `SerialException` only `is_connected` is cleared — the handle is
not closed and `arduino_responding` is not reset); the optional drain of
one reply line affects no modelled state. -/
def send_command_body (env : SendEnv) (s : Session) (command : Nat)
    (cc : Nat) : SendResult :=
  if !s.arduino_responding && s.require_arduino then ⟨s, false, none, cc⟩
  else if env.writeOk then ⟨s, true, some (toString command ++ "\n"), cc⟩
  else ⟨{ s with is_connected := false }, false, none, cc⟩

/-- `ArduinoSerial.send_command`. -/
def send_command (env : SendEnv) (s : Session) (command : Nat) : SendResult :=
  if s.is_connected then send_command_body env s command 0
  else
    let r := connect env.cenv s
    if r.ok then send_command_body env r.state command 1
    else ⟨r.state, false, none, 1⟩

/-- `ArduinoSerial.send_label_command`: only the labels `"Bom"`, `"Ruim"`
and `"Nada"` are recognized; anything else hits the warning branch and
returns `False` without touching the session. -/
def send_label_command (env : SendEnv) (s : Session) (label : String) :
    SendResult :=
  if label = "Bom" then send_command env s 1
  else if label = "Ruim" then send_command env s 0
  else if label = "Nada" then ⟨s, true, none, 0⟩
  else ⟨s, false, none, 0⟩

/-! ### The perception loop cadence (`Camera.run_with_model`)

Each pass of the `while True` body that reaches the prediction gate is a
`FrameTick` carrying the two `time.time()` readings the code can take on
that pass: `tGate`, read in the gate comparison
`time.time() - last_prediction_time >= prediction_interval`, and `tUpd`,
read after `model.predict` to refresh `last_prediction_time` (so
`tGate ≤ tUpd`; on a pass that does not fire, `tUpd` is simply unused).
`run_with_model` raises before the loop when `self.model is None`, so the
inner `if self.model is not None` guard always passes, and on every
firing the label is dispatched through `send_label_command` when an
`arduino_serial` is attached. -/

structure FrameTick where
  tGate : ℚ
  tUpd : ℚ
deriving DecidableEq

/-- The clock readings are chronological: starting from `t` (the value of
`last_prediction_time` entering the run, `0` initially), each frame's
gate reading comes no earlier, and its update reading no earlier than its
gate reading. -/
def chronB : ℚ → List FrameTick → Bool
  | _, [] => true
  | t, f :: fs =>
    (decide (t ≤ f.tGate) && decide (f.tGate ≤ f.tUpd)) && chronB f.tUpd fs

/-- One record per frame of the run: the value of `last_prediction_time`
entering the pass, the gate clock reading, and whether the
inference/dispatch branch fired on that pass. -/
structure GateStep where
  lastBefore : ℚ
  tGate : ℚ
  fired : Bool
deriving DecidableEq

/-- The prediction-gate trace of `Camera.run_with_model`: the branch fires
exactly when `tGate - last_prediction_time ≥ prediction_interval`
(`>=` in the code, so a tick exactly at the boundary is due), and firing
sets `last_prediction_time` to the post-inference reading `tUpd`. -/
def gate_trace (interval : ℚ) : ℚ → List FrameTick → List GateStep
  | _, [] => []
  | last, f :: fs =>
    if interval ≤ f.tGate - last then
      ⟨last, f.tGate, true⟩ :: gate_trace interval f.tUpd fs
    else
      ⟨last, f.tGate, false⟩ :: gate_trace interval last fs

/-- The gate readings of the passes on which inference (and hence
dispatch) fired. -/
def fired_gates (interval : ℚ) (t : ℚ) (frames : List FrameTick) : List ℚ :=
  ((gate_trace interval t frames).filter (fun g => g.fired)).map
    (fun g => g.tGate)

/-! ### Concrete fixtures used by several evaluations -/

/-- A session that connected successfully and verified: open handle,
connected, responding, `require_arduino` set. -/
def respondingSession : Session :=
  ⟨some "COM3", 9600, 1, some true, true, true, true⟩

/-- A benign environment: no ports to discover, opens succeed, no incoming
lines, writes succeed. -/
def idleSendEnv : SendEnv := ⟨⟨[], true, []⟩, true⟩

/-! ### Claim theorems -/

/-- C1.  Evaluation of the dispatcher on the four labels the claim names:
`"Bom"` and `"Ruim"` do send exactly `"1\n"` / `"0\n"` and return the
send outcome, but `"Good"` and `"Bad"` hit the unknown-label branch —
nothing is written and `False` is returned, contradicting the claim (and
`main.py`'s own printed mapping `'Good' -> Sends '1'`). -/
theorem send_label_command_english_labels_eval :
    (send_label_command idleSendEnv respondingSession "Bom").wrote = some "1\n" ∧
    (send_label_command idleSendEnv respondingSession "Bom").ok = true ∧
    (send_label_command idleSendEnv respondingSession "Ruim").wrote = some "0\n" ∧
    (send_label_command idleSendEnv respondingSession "Ruim").ok = true ∧
    send_label_command idleSendEnv respondingSession "Good" =
      ⟨respondingSession, false, none, 0⟩ ∧
    send_label_command idleSendEnv respondingSession "Bad" =
      ⟨respondingSession, false, none, 0⟩ := by
  refine ⟨rfl, rfl, rfl, rfl, rfl, rfl⟩

/-- C7.  Evaluation of the dispatcher on the no-op labels: `"Nada"`
returns success without touching the session (nothing written, no
`connect()` attempted), but `"Nothing"` hits the unknown-label branch and
returns `False`, contradicting the claim that it returns success.  An
arbitrary unknown label likewise writes nothing and returns `False`. -/
theorem send_label_command_noop_labels_eval :
    send_label_command idleSendEnv respondingSession "Nada" =
      ⟨respondingSession, true, none, 0⟩ ∧
    send_label_command idleSendEnv respondingSession "Nothing" =
      ⟨respondingSession, false, none, 0⟩ ∧
    send_label_command idleSendEnv respondingSession "banana" =
      ⟨respondingSession, false, none, 0⟩ := by
  refine ⟨rfl, rfl, rfl⟩

/-- C5.  If the candidate list contains a strategy-1 match (descriptor or
hwid contains "arduino" case-insensitively), discovery returns the first
such candidate's device, regardless of what the other candidates are. -/
theorem find_arduino_port_first_tier1 (pre suf : List PortInfo) (p : PortInfo)
    (hpre : ∀ q ∈ pre, desc_or_hwid_has_arduino q = false)
    (hp : desc_or_hwid_has_arduino p = true) :
    find_arduino_port (pre ++ p :: suf) = some p.device := by
  have hfind : (pre ++ p :: suf).find? desc_or_hwid_has_arduino = some p := by
    induction pre with
    | nil => simp [List.find?, hp]
    | cons q qs ih =>
      have hq : desc_or_hwid_has_arduino q = false := hpre q (by simp)
      have ih' := ih (fun r hr => hpre r (by simp [hr]))
      simpa [List.find?, hq] using ih'
  have hne : (pre ++ p :: suf).isEmpty = false := by
    cases pre <;> simp [List.isEmpty]
  simp [find_arduino_port, hne, hfind]

theorem find_arduino_port_first_tier1_witness :
    (∀ q ∈ ([⟨"COM9", "USB Serial", "USB VID:PID=1A86:7523"⟩] : List PortInfo),
      desc_or_hwid_has_arduino q = false) ∧
    desc_or_hwid_has_arduino ⟨"/dev/ttyACM0", "Arduino Uno", "USB VID:PID=2341:0043"⟩ = true ∧
    find_arduino_port
      [⟨"COM9", "USB Serial", "USB VID:PID=1A86:7523"⟩,
       ⟨"/dev/ttyACM0", "Arduino Uno", "USB VID:PID=2341:0043"⟩,
       ⟨"COM3", "arduino nano", "x"⟩] = some "/dev/ttyACM0" :=
  ⟨by decide, by decide,
   find_arduino_port_first_tier1
     [⟨"COM9", "USB Serial", "USB VID:PID=1A86:7523"⟩]
     [⟨"COM3", "arduino nano", "x"⟩]
     ⟨"/dev/ttyACM0", "Arduino Uno", "USB VID:PID=2341:0043"⟩
     (by decide) (by decide)⟩

/-- C6.  With no strategy-1/2/3 match anywhere: a singleton candidate list
yields that candidate's device (strategy 4), while an empty list or one
with two or more candidates yields `none`. -/
theorem find_arduino_port_singleton_fallback (ports : List PortInfo)
    (h : ∀ q ∈ ports, desc_or_hwid_has_arduino q = false ∧
      hwid_has_known_vid_pid q = false ∧ device_has_arduino_name q = false) :
    (∀ p, ports = [p] → find_arduino_port ports = some p.device) ∧
    (ports.length ≠ 1 → find_arduino_port ports = none) := by
  have h1 : ports.find? desc_or_hwid_has_arduino = none :=
    List.find?_eq_none.mpr (fun x hx => by simp [(h x hx).1])
  have h2 : ports.find? hwid_has_known_vid_pid = none :=
    List.find?_eq_none.mpr (fun x hx => by simp [(h x hx).2.1])
  have h3 : ports.find? device_has_arduino_name = none :=
    List.find?_eq_none.mpr (fun x hx => by simp [(h x hx).2.2])
  constructor
  · rintro p rfl
    simp [find_arduino_port] at h1 h2 h3 ⊢
    simp [List.find?, h1, h2, h3]
  · intro hlen
    match ports, hlen with
    | [], _ => simp [find_arduino_port]
    | [p], hlen => exact absurd rfl hlen
    | p :: q :: rest, _ =>
      have hne : (p :: q :: rest).isEmpty = false := by simp [List.isEmpty]
      simp [find_arduino_port, hne, h1, h2, h3]

theorem find_arduino_port_singleton_fallback_witness :
    (∀ q ∈ ([⟨"/dev/ttyS0", "n/a", "n/a"⟩] : List PortInfo),
      desc_or_hwid_has_arduino q = false ∧ hwid_has_known_vid_pid q = false ∧
      device_has_arduino_name q = false) ∧
    find_arduino_port [⟨"/dev/ttyS0", "n/a", "n/a"⟩] = some "/dev/ttyS0" :=
  ⟨by decide,
   (find_arduino_port_singleton_fallback [⟨"/dev/ttyS0", "n/a", "n/a"⟩]
     (by decide)).1 ⟨"/dev/ttyS0", "n/a", "n/a"⟩ rfl⟩

/-- C9.  Verification examines at most three ping attempts (the ping count
it reports never exceeds 3); it succeeds exactly when the handle is open
and some line arriving within the first three attempts contains the ready
token (so if no attempt sees the token it ends with `responding = false`);
and a ready line in the first attempt short-circuits: exactly one ping is
sent, whatever the later attempts would have delivered. -/
theorem verify_connection_bounded (isOpen : Bool) (arrivals : List (List String)) :
    (verify_arduino_connection isOpen arrivals).2 ≤ 3 ∧
    ((verify_arduino_connection isOpen arrivals).1 = true ↔
      (isOpen = true ∧ ∃ a ∈ arrivals.take 3, ∃ l ∈ a, line_is_ready l = true)) ∧
    (∀ a rest, a.any line_is_ready = true →
      verify_arduino_connection true (a :: rest) = (true, 1)) := by
  have key : ∀ xs : List (List String),
      (verify_attempts xs).2 ≤ xs.length ∧
      ((verify_attempts xs).1 = true ↔ ∃ a ∈ xs, ∃ l ∈ a, line_is_ready l = true) := by
    intro xs
    induction xs with
    | nil => simp [verify_attempts]
    | cons a rest ih =>
      by_cases ha : a.any line_is_ready = true
      · rcases List.any_eq_true.mp ha with ⟨l, hl, hready⟩
        refine ⟨by simp [verify_attempts, ha], ?_⟩
        simp [verify_attempts, ha]
        exact Or.inl ⟨l, hl, hready⟩
      · have ha' : a.any line_is_ready = false := by
          cases hcase : a.any line_is_ready
          · rfl
          · exact absurd hcase ha
        constructor
        · simpa [verify_attempts, ha'] using Nat.succ_le_succ ih.1
        · have hfst : (verify_attempts (a :: rest)).1 = (verify_attempts rest).1 := by
            simp [verify_attempts, ha']
          rw [hfst, ih.2]
          constructor
          · rintro ⟨b, hb, l, hl, hready⟩
            exact ⟨b, List.mem_cons_of_mem a hb, l, hl, hready⟩
          · rintro ⟨b, hb, l, hl, hready⟩
            rcases List.mem_cons.mp hb with rfl | hb'
            · exact absurd (List.any_eq_true.mpr ⟨l, hl, hready⟩) ha
            · exact ⟨b, hb', l, hl, hready⟩
  refine ⟨?_, ?_, ?_⟩
  · cases isOpen
    · simp [verify_arduino_connection]
    · have := (key (arrivals.take 3)).1
      calc (verify_arduino_connection true arrivals).2
          = (verify_attempts (arrivals.take 3)).2 := by
            simp [verify_arduino_connection]
        _ ≤ (arrivals.take 3).length := this
        _ ≤ 3 := by simp [List.length_take_le 3 arrivals]
  · cases isOpen
    · simp [verify_arduino_connection]
    · simpa [verify_arduino_connection] using (key (arrivals.take 3)).2
  · intro a rest ha
    simp [verify_arduino_connection, verify_attempts, ha]

theorem verify_connection_bounded_witness :
    (verify_arduino_connection true [["noise"], ["ok Arduino pronto ok"]]).2 ≤ 3 ∧
    ((verify_arduino_connection true [["noise"], ["ok Arduino pronto ok"]]).1 = true ↔
      (true = true ∧ ∃ a ∈ ([["noise"], ["ok Arduino pronto ok"]] : List (List String)).take 3,
        ∃ l ∈ a, line_is_ready l = true)) ∧
    (∀ a rest, a.any line_is_ready = true →
      verify_arduino_connection true (a :: rest) = (true, 1)) :=
  verify_connection_bounded true [["noise"], ["ok Arduino pronto ok"]]

/-! ### The session invariant of the spec, at code level

`state ∈ \x7bDisconnected, Failed\x7d` corresponds to `is_connected = false`
(`Responding`/`Silent` are the open states), so the spec's invariant
reads: `arduino_responding → is_connected`, and
`serial_conn` is an open handle iff `is_connected`. -/

def sessionInv (s : Session) : Bool :=
  (!s.arduino_responding || s.is_connected) &&
  (decide (s.serial_conn = some true) == s.is_connected)

lemma sessionInv_iff (s : Session) : sessionInv s = true ↔
    ((s.arduino_responding = true → s.is_connected = true) ∧
     (s.serial_conn = some true ↔ s.is_connected = true)) := by
  rcases s with ⟨p, b, t, conn, ic, ar, req⟩
  simp only [sessionInv]
  cases ic <;> cases ar <;> rcases conn with _ | (_ | _) <;> simp

lemma connect_after_port_inv (env : ConnectEnv) (s : Session) (rd : Bool)
    (h : sessionInv s = true) (hic : s.is_connected = false) :
    sessionInv (connect_after_port env s rd).state = true := by
  obtain ⟨h1, h2⟩ := (sessionInv_iff s).mp h
  unfold connect_after_port
  by_cases ho : env.openOk
  · simp only [ho, if_true]
    by_cases hr : (verify_arduino_connection true env.arrivals).1
    · simp only [hr]
      rw [sessionInv_iff]
      simp
    · simp only [hr]
      by_cases hreq : s.require_arduino
      · simp only [hreq, Bool.not_false, Bool.and_self, if_true]
        rw [sessionInv_iff]
        simp [hic]
      · simp only [hreq, Bool.and_false, Bool.if_false_left]
        rw [sessionInv_iff]
        simp
  · simp only [ho, if_false]
    exact h

lemma connect_inv (env : ConnectEnv) (s : Session)
    (h : sessionInv s = true) : sessionInv (connect env s).state = true := by
  unfold connect
  split
  · exact h
  · next hic =>
      have hic' : s.is_connected = false := by simpa using hic
      split
      · split
        · exact h
        · exact connect_after_port_inv env _ true h hic'
      · exact connect_after_port_inv env s false h hic'

lemma disconnect_inv (s : Session) (h : sessionInv s = true) :
    sessionInv (disconnect s) = true := by
  unfold disconnect
  by_cases hc : s.serial_conn.isSome && s.is_connected
  · simp only [hc, if_true]
    rw [sessionInv_iff]
    simp
  · simpa [hc] using h

lemma send_command_body_inv (env : SendEnv) (s : Session) (c cc : Nat)
    (h : sessionInv s = true) (hw : env.writeOk = true) :
    sessionInv (send_command_body env s c cc).state = true := by
  unfold send_command_body
  by_cases hg : !s.arduino_responding && s.require_arduino
  · simpa [hg] using h
  · simpa [hg, hw] using h

lemma send_command_inv (env : SendEnv) (s : Session) (c : Nat)
    (h : sessionInv s = true) (hw : env.writeOk = true) :
    sessionInv (send_command env s c).state = true := by
  unfold send_command
  by_cases hic : s.is_connected
  · simpa [hic] using send_command_body_inv env s c 0 h hw
  · have hr := connect_inv env.cenv s h
    simp only [hic, if_false, Bool.false_eq_true]
    by_cases hok : (connect env.cenv s).ok
    · simpa [hok] using send_command_body_inv env _ c 1 hr hw
    · simpa [hok] using hr

/-- C2 counterexample.  A session reached by a successful, verified
`connect()` satisfies the invariant; a send whose write raises then
leaves `arduino_responding = true` and the handle open while
`is_connected` becomes false, so the invariant is not preserved by the
send operation. -/
def cexConnectEnv : ConnectEnv := ⟨[], true, [["Arduino pronto"]]⟩

def cexConnected : Session :=
  (connect cexConnectEnv (arduino_serial_init (some "COM3") 9600 1 true)).state

def cexAfterFailedSend : Session :=
  (send_command ⟨cexConnectEnv, false⟩ cexConnected 1).state

theorem session_invariant_not_preserved_by_failed_send :
    sessionInv cexConnected = true ∧
    cexAfterFailedSend.arduino_responding = true ∧
    cexAfterFailedSend.is_connected = false ∧
    cexAfterFailedSend.serial_conn = some true ∧
    sessionInv cexAfterFailedSend = false := by
  refine ⟨rfl, rfl, rfl, rfl, rfl⟩

/-- C2 (amended).  The invariant `arduino_responding → is_connected` and
`handle open ↔ is_connected` (i.e. iff the state is neither
`Disconnected` nor `Failed`) is preserved by `connect`, by `disconnect`,
and by any `send_command` whose write succeeds — but not by a send whose
write fails, which leaves `arduino_responding` and the open handle
unchanged while clearing `is_connected`. -/
theorem session_operations_preserve_invariant (s : Session)
    (h : sessionInv s = true) :
    (∀ env, sessionInv (connect env s).state = true) ∧
    sessionInv (disconnect s) = true ∧
    (∀ env c, env.writeOk = true → sessionInv (send_command env s c).state = true) :=
  ⟨fun env => connect_inv env s h,
   disconnect_inv s h,
   fun env c hw => send_command_inv env s c h hw⟩

theorem session_operations_preserve_invariant_witness :
    sessionInv cexConnected = true ∧
    sessionInv (disconnect cexConnected) = true ∧
    sessionInv (connect cexConnectEnv cexConnected).state = true ∧
    sessionInv (send_command ⟨cexConnectEnv, true⟩ cexConnected 1).state = true :=
  ⟨by decide,
   (session_operations_preserve_invariant cexConnected (by decide)).2.1,
   (session_operations_preserve_invariant cexConnected (by decide)).1 cexConnectEnv,
   (session_operations_preserve_invariant cexConnected (by decide)).2.2
     ⟨cexConnectEnv, true⟩ 1 rfl⟩

/-! ### Helper facts about `connect` / `send_command` plumbing -/

lemma connect_after_port_spec (env : ConnectEnv) (s : Session) (rd : Bool) :
    (connect_after_port env s rd).ranDiscovery = rd ∧
    (connect_after_port env s rd).state.port = s.port := by
  unfold connect_after_port
  dsimp only
  split
  · split
    · exact ⟨rfl, rfl⟩
    · exact ⟨rfl, rfl⟩
  · exact ⟨rfl, rfl⟩

lemma connect_keeps_port (env : ConnectEnv) (s : Session) (p : String)
    (hp : s.port = some p) :
    (connect env s).ranDiscovery = false ∧ (connect env s).state.port = some p := by
  unfold connect
  split
  · exact ⟨rfl, hp⟩
  · split
    · next heq => rw [hp] at heq; exact absurd heq (by simp)
    · refine ⟨(connect_after_port_spec env s false).1, ?_⟩
      rw [(connect_after_port_spec env s false).2, hp]

lemma send_command_body_port (env : SendEnv) (s : Session) (c cc : Nat) :
    (send_command_body env s c cc).state.port = s.port := by
  unfold send_command_body
  split
  · rfl
  · split
    · rfl
    · rfl

/-- C3.  A send whose write raises returns `False` and demotes the
session (`is_connected = false`); therefore the next `send_command` call,
whatever its environment, performs exactly one `connect()` before its
write step. -/
theorem send_write_failure_then_single_reconnect (env : SendEnv)
    (s : Session) (c : Nat)
    (hic : s.is_connected = true)
    (hguard : (!s.arduino_responding && s.require_arduino) = false)
    (hw : env.writeOk = false) :
    (send_command env s c).ok = false ∧
    (send_command env s c).state.is_connected = false ∧
    (∀ env2 c2, (send_command env2 (send_command env s c).state c2).connectCalls = 1) := by
  have hres : send_command env s c =
      ⟨{ s with is_connected := false }, false, none, 0⟩ := by
    unfold send_command send_command_body
    simp [hic, hguard, hw]
  refine ⟨by rw [hres], by rw [hres], ?_⟩
  intro env2 c2
  rw [hres]
  unfold send_command
  rw [if_neg (by simp)]
  dsimp only
  split
  · unfold send_command_body
    split
    · rfl
    · split
      · rfl
      · rfl
  · rfl

theorem send_write_failure_then_single_reconnect_witness :
    (send_command ⟨⟨[], true, []⟩, false⟩ respondingSession 1).ok = false ∧
    (send_command ⟨⟨[], true, []⟩, false⟩ respondingSession 1).state.is_connected = false ∧
    (∀ env2 c2,
      (send_command env2
        (send_command ⟨⟨[], true, []⟩, false⟩ respondingSession 1).state c2).connectCalls = 1) :=
  send_write_failure_then_single_reconnect ⟨⟨[], true, []⟩, false⟩
    respondingSession 1 rfl rfl rfl

/-- C4.  When a connect opens a port but verification leaves
`arduino_responding = false` and `require_arduino` is set, `connect()`
returns `False`, the fresh handle has been closed, and the session is
neither marked connected nor responding. -/
theorem connect_require_fail_leaves_closed (env : ConnectEnv) (s : Session)
    (p : String)
    (hic : s.is_connected = false)
    (hport : s.port = some p)
    (hreq : s.require_arduino = true)
    (hopen : env.openOk = true)
    (hverify : (verify_arduino_connection true env.arrivals).1 = false) :
    (connect env s).ok = false ∧
    (connect env s).state.serial_conn = some false ∧
    (connect env s).state.is_connected = false ∧
    (connect env s).state.arduino_responding = false := by
  have hres : connect env s =
      ⟨{ s with serial_conn := some false, arduino_responding := false },
       false, false⟩ := by
    unfold connect connect_after_port
    simp [hic, hport, hopen, hverify, hreq]
  rw [hres]
  exact ⟨rfl, rfl, hic, rfl⟩

theorem connect_require_fail_leaves_closed_witness :
    (connect ⟨[], true, [["hello"]]⟩ ⟨some "COM3", 9600, 1, none, false, false, true⟩).ok = false ∧
    (connect ⟨[], true, [["hello"]]⟩ ⟨some "COM3", 9600, 1, none, false, false, true⟩).state.serial_conn = some false ∧
    (connect ⟨[], true, [["hello"]]⟩ ⟨some "COM3", 9600, 1, none, false, false, true⟩).state.is_connected = false ∧
    (connect ⟨[], true, [["hello"]]⟩ ⟨some "COM3", 9600, 1, none, false, false, true⟩).state.arduino_responding = false :=
  connect_require_fail_leaves_closed ⟨[], true, [["hello"]]⟩
    ⟨some "COM3", 9600, 1, none, false, false, true⟩ "COM3"
    rfl rfl rfl rfl (by decide)

/-- C10.  Port persistence: a configured port is never overwritten and
suppresses discovery on every `connect()`; when discovery runs (no port
configured, not yet connected) and returns a port, that port is stored
in the session state no matter how the rest of that `connect()` fares
(open error, failed verification under `require_arduino`, or success);
and `disconnect` and `send_command` never clear a stored port. -/
theorem connect_port_persistence :
    (∀ env s p, s.port = some p →
      (connect env s).ranDiscovery = false ∧ (connect env s).state.port = some p) ∧
    (∀ env s p, s.is_connected = false → s.port = none →
      find_arduino_port env.ports = some p →
      (connect env s).ranDiscovery = true ∧ (connect env s).state.port = some p) ∧
    (∀ s, (disconnect s).port = s.port) ∧
    (∀ env s c p, s.port = some p → (send_command env s c).state.port = some p) := by
  refine ⟨?_, ?_, ?_, ?_⟩
  · intro env s p hp
    exact connect_keeps_port env s p hp
  · intro env s p hic hport hfind
    unfold connect
    rw [if_neg (by simp [hic]), hport, hfind]
    exact ⟨(connect_after_port_spec env _ true).1,
           (connect_after_port_spec env _ true).2⟩
  · intro s
    unfold disconnect
    split
    · rfl
    · rfl
  · intro env s c p hp
    unfold send_command
    split
    · rw [send_command_body_port]; exact hp
    · dsimp only
      split
      · rw [send_command_body_port]
        exact (connect_keeps_port env.cenv s p hp).2
      · exact (connect_keeps_port env.cenv s p hp).2

theorem connect_port_persistence_witness :
    ((connect ⟨[⟨"/dev/ttyACM0", "Arduino Uno", "x"⟩], false, []⟩
        (arduino_serial_init none 9600 1 true)).ranDiscovery = true ∧
     (connect ⟨[⟨"/dev/ttyACM0", "Arduino Uno", "x"⟩], false, []⟩
        (arduino_serial_init none 9600 1 true)).state.port = some "/dev/ttyACM0") ∧
    ((connect ⟨[], false, []⟩
        (connect ⟨[⟨"/dev/ttyACM0", "Arduino Uno", "x"⟩], false, []⟩
          (arduino_serial_init none 9600 1 true)).state).ranDiscovery = false ∧
     (connect ⟨[], false, []⟩
        (connect ⟨[⟨"/dev/ttyACM0", "Arduino Uno", "x"⟩], false, []⟩
          (arduino_serial_init none 9600 1 true)).state).state.port = some "/dev/ttyACM0") :=
  ⟨connect_port_persistence.2.1
     ⟨[⟨"/dev/ttyACM0", "Arduino Uno", "x"⟩], false, []⟩
     (arduino_serial_init none 9600 1 true) "/dev/ttyACM0" rfl rfl (by decide),
   connect_port_persistence.1 ⟨[], false, []⟩
     (connect ⟨[⟨"/dev/ttyACM0", "Arduino Uno", "x"⟩], false, []⟩
       (arduino_serial_init none 9600 1 true)).state "/dev/ttyACM0" (by decide)⟩

/-! ### Cadence lemmas for the perception loop -/

lemma chronB_mono (t t' : ℚ) (fs : List FrameTick) (h : t' ≤ t)
    (hc : chronB t fs = true) : chronB t' fs = true := by
  cases fs with
  | nil => rfl
  | cons f fs =>
    simp only [chronB, Bool.and_eq_true, decide_eq_true_eq] at hc ⊢
    exact ⟨⟨le_trans h hc.1.1, hc.1.2⟩, hc.2⟩

lemma gate_trace_fired_iff (interval : ℚ) :
    ∀ (fs : List FrameTick) (t : ℚ) (g : GateStep),
      g ∈ gate_trace interval t fs →
      (g.fired = true ↔ interval ≤ g.tGate - g.lastBefore) := by
  intro fs
  induction fs with
  | nil =>
    intro t g hg
    simp [gate_trace] at hg
  | cons f fs ih =>
    intro t g hg
    by_cases hfire : interval ≤ f.tGate - t
    · rw [show gate_trace interval t (f :: fs) =
          ⟨t, f.tGate, true⟩ :: gate_trace interval f.tUpd fs from by
            simp [gate_trace, hfire]] at hg
      rcases List.mem_cons.mp hg with rfl | hg'
      · simpa using hfire
      · exact ih f.tUpd g hg'
    · rw [show gate_trace interval t (f :: fs) =
          ⟨t, f.tGate, false⟩ :: gate_trace interval t fs from by
            simp [gate_trace, hfire]] at hg
      rcases List.mem_cons.mp hg with rfl | hg'
      · simpa using hfire
      · exact ih t g hg'

lemma fired_gates_sep (interval : ℚ) :
    ∀ (fs : List FrameTick) (t : ℚ), chronB t fs = true →
      List.Pairwise (fun a b => interval ≤ b - a) (fired_gates interval t fs) ∧
      (∀ g ∈ fired_gates interval t fs, interval ≤ g - t) := by
  intro fs
  induction fs with
  | nil =>
    intro t _
    simp [fired_gates, gate_trace]
  | cons f fs ih =>
    intro t hc
    simp only [chronB, Bool.and_eq_true, decide_eq_true_eq] at hc
    obtain ⟨⟨h1, h2⟩, h3⟩ := hc
    by_cases hfire : interval ≤ f.tGate - t
    · have heq : fired_gates interval t (f :: fs) =
          f.tGate :: fired_gates interval f.tUpd fs := by
        simp [fired_gates, gate_trace, hfire]
      obtain ⟨pw, hall⟩ := ih f.tUpd h3
      rw [heq]
      constructor
      · refine List.pairwise_cons.mpr ⟨?_, pw⟩
        intro g hg
        have hgap := hall g hg
        linarith
      · intro g hg
        rcases List.mem_cons.mp hg with rfl | hg'
        · exact hfire
        · have hgap := hall g hg'
          linarith
    · have heq : fired_gates interval t (f :: fs) = fired_gates interval t fs := by
        simp [fired_gates, gate_trace, hfire]
      rw [heq]
      exact ih t (chronB_mono f.tUpd t fs (le_trans h1 h2) h3)

/-- C8.  Over any chronological run of the perception loop: a pass fires
the inference/dispatch branch exactly when its gate reading satisfies
`tGate - last_prediction_time ≥ interval` (the boundary tick counting as
due), and the gate readings of any two firing passes are at least the
configured interval apart — so at most one inference and one dispatch
occur per interval, regardless of how many frames arrive. -/
theorem run_with_model_cadence (interval t0 : ℚ) (frames : List FrameTick)
    (hchron : chronB t0 frames = true) :
    (∀ g ∈ gate_trace interval t0 frames,
      (g.fired = true ↔ interval ≤ g.tGate - g.lastBefore)) ∧
    List.Pairwise (fun a b => interval ≤ b - a) (fired_gates interval t0 frames) :=
  ⟨fun g hg => gate_trace_fired_iff interval frames t0 g hg,
   (fired_gates_sep interval frames t0 hchron).1⟩

theorem run_with_model_cadence_witness :
    chronB 0 [⟨1, 1⟩, ⟨(3 : ℚ)/2, (3 : ℚ)/2⟩, ⟨2, 2⟩] = true ∧
    List.Pairwise (fun a b => (1 : ℚ) ≤ b - a)
      (fired_gates 1 0 [⟨1, 1⟩, ⟨(3 : ℚ)/2, (3 : ℚ)/2⟩, ⟨2, 2⟩]) :=
  ⟨by norm_num [chronB],
   (run_with_model_cadence 1 0 [⟨1, 1⟩, ⟨(3 : ℚ)/2, (3 : ℚ)/2⟩, ⟨2, 2⟩]
     (by norm_num [chronB])).2⟩
